import Mathlib

/-!
Verification of the VERITAS evaluation-and-decision pipeline.

Shallow embedding of:
* `src/project/tools/trust_calculator.py` (`TrustCalculator._run`,
  `TrustCalculator._detect_conflicts`),
* `src/project/audit_logger.py` (`AuditLogger`),
* `src/project/main.py` (`run_veritas_audit`).

Python `float` arithmetic in the trust calculator is modelled exactly:
an IEEE-754 binary64 value is a rational number, and every arithmetic
operation rounds its exact rational result to the nearest representable
value (ties to even).  `roundDouble` below implements that rounding for
the magnitude range occurring in this program (no overflow, no
subnormals).  Python's `round` on a float rounds the exact value of the
double to the nearest integer, ties to even (`rnearestEvenZ`), and
`int(...)` on the resulting `int` is the identity.
-/

namespace Veritas

/-- Round a rational to the nearest integer, ties to even.  This is the
rounding performed by Python's built-in `round` on an exactly known
value, and also the final mantissa rounding step of every IEEE-754
binary64 operation. -/
def rnearestEvenZ (q : ℚ) : ℤ :=
  if q - ⌊q⌋ < 1/2 then ⌊q⌋
  else if q - ⌊q⌋ > 1/2 then ⌊q⌋ + 1
  else if ⌊q⌋ % 2 = 0 then ⌊q⌋ else ⌊q⌋ + 1

/-- Search for the binade of a positive rational: starting from `n` and
spending `fuel` steps, return the first exponent `m` with `q < 2 ^ m`. -/
def ulpExpGo (q : ℚ) : ℕ → ℤ → ℤ
  | 0, n => n
  | fuel + 1, n => if q < (2 : ℚ) ^ n then n else ulpExpGo q fuel (n + 1)

/-- Exponent `m` with `2 ^ (m - 1) ≤ q < 2 ^ m`, valid for
`2 ^ (-9) ≤ q < 2 ^ 17`, which covers the magnitude of every value in
the trust-score computation. -/
def ulpExp (q : ℚ) : ℤ := ulpExpGo q 25 (-8)

/-- Round a nonnegative rational to the nearest IEEE-754 binary64 value
(round to nearest, ties to even): scale into the 53-bit mantissa range
for its binade, round to an integer, and scale back. -/
def roundDouble (q : ℚ) : ℚ :=
  if q ≤ 0 then 0
  else
    let m := ulpExp q
    ((rnearestEvenZ (q * (2 : ℚ) ^ (53 - m)) : ℤ) : ℚ) * (2 : ℚ) ^ (m - 53)

/-- The binary64 value written `0.30` in the source (weight of the
privacy and ethics dimensions). -/
def w030 : ℚ := roundDouble (3 / 10)

/-- The binary64 value written `0.20` in the source (weight of the bias
and transparency dimensions). -/
def w020 : ℚ := roundDouble (1 / 5)

/-- Binary64 multiplication: exact product, rounded. -/
def mulD (x y : ℚ) : ℚ := roundDouble (x * y)

/-- Binary64 addition: exact sum, rounded. -/
def addD (x y : ℚ) : ℚ := roundDouble (x + y)

/-- The four dimension scores, mirroring the `scores` dict built at the
top of `TrustCalculator._run` (insertion order: privacy, bias,
transparency, ethics). -/
structure Scores where
  privacy : ℤ
  bias : ℤ
  transparency : ℤ
  ethics : ℤ
deriving DecidableEq

/-- Python `str.upper()` (the dimension names are ASCII). -/
def pyUpper (s : String) : String :=
  ⟨s.data.map Char.toUpper⟩

/-- The dict's items in insertion order: `list(scores.items())`. -/
def score_list (s : Scores) : List (String × ℤ) :=
  [("privacy", s.privacy), ("bias", s.bias),
   ("transparency", s.transparency), ("ethics", s.ethics)]

/-- Dict lookup `scores[name]`, as used inside `_detect_conflicts`.
Only the four dimension names ever occur. -/
def scoreGet (s : Scores) (n : String) : ℤ :=
  if n = "privacy" then s.privacy
  else if n = "bias" then s.bias
  else if n = "transparency" then s.transparency
  else if n = "ethics" then s.ethics
  else 0

/-- One recorded `ConflictResolution` dict
(`{"agents": [...], "scores": [...], "resolution": ...}`). -/
structure Conflict where
  agents : List String
  scores : List ℤ
  resolution : String
deriving DecidableEq

/-- Body of the inner loop of `TrustCalculator._detect_conflicts`:
compare one earlier entry `(name1, score1)` of the score list with a
later entry `p`, and record a conflict when the absolute difference
exceeds 40. -/
def pairCheck (s : Scores) (name1 : String) (score1 : ℤ) (p : String × ℤ) : Option Conflict :=
  if |score1 - p.2| > 40 then
    some
      { agents := [pyUpper name1, pyUpper p.1]
      , scores := [score1, p.2]
      , resolution :=
          if name1 = "ethics" ∨ p.1 = "ethics" ∨
              name1 = "privacy" ∨ p.1 = "privacy" then
            "Deferring to stricter " ++
              (if scoreGet s name1 < scoreGet s p.1 then name1 else p.1) ++
              " score for safety"
          else "Averaging scores with slight penalty for disagreement" }
  else none

/-- The two nested loops of `TrustCalculator._detect_conflicts`: for
each `i`, pair `score_list[i]` with every later entry. -/
def detectPairs (s : Scores) : List (String × ℤ) → List Conflict
  | [] => []
  | (name1, score1) :: rest =>
      rest.filterMap (pairCheck s name1 score1) ++ detectPairs s rest

/-- Embeds `TrustCalculator._detect_conflicts`. -/
def detect_conflicts (s : Scores) : List Conflict :=
  detectPairs s (score_list s)

/-- A conflict between dimensions named `a` and `b` (in either order)
appears in the conflict list `cs`. -/
def conflictRecorded (cs : List Conflict) (a b : String) : Prop :=
  ∃ c ∈ cs, c.agents = [a, b] ∨ c.agents = [b, a]

/-- The data handed to `_format_output` by `TrustCalculator._run`;
`_format_output` only renders these fields into a report string. -/
structure RunOutput where
  overall_score : ℤ
  scores : Scores
  decision : String
  reason : String
  conflicts : List Conflict
deriving DecidableEq

/-- The `critical_failures` list built in `_run`: every dimension whose
score is below `CRITICAL_THRESHOLD = 20`, rendered `NAME: score`, in
dict order. -/
def critical_failures (s : Scores) : List String :=
  (score_list s).filterMap fun p =>
    if p.2 < 20 then some (pyUpper p.1 ++ ": " ++ toString p.2) else none

/-- The binary64 evaluation of
`sum(scores[name] * WEIGHTS[name] for name in scores)`:
left-to-right sum (the initial `0 + x` is exact in binary64) of the four
rounded products, in dict order. -/
def weightedSum (s : Scores) : ℚ :=
  addD (addD (addD (mulD (s.privacy : ℚ) w030) (mulD (s.bias : ℚ) w020))
      (mulD (s.transparency : ℚ) w020))
    (mulD (s.ethics : ℚ) w030)

/-- Python `str.strip()`: remove leading and trailing whitespace
(modelled with `Char.isWhitespace`, which covers the ASCII whitespace
characters occurring here). -/
def pyStrip (s : String) : String :=
  ⟨((s.data.dropWhile Char.isWhitespace).reverse.dropWhile Char.isWhitespace).reverse⟩

/-- Embeds `TrustCalculator._run`.  Python's truthiness test
`if critical_issues and len(critical_issues.strip()) > 0` is modelled
with `pyStrip` for `str.strip` and `≠ ""` for truthiness of a string. -/
def TrustCalculator_run (privacy_score bias_score transparency_score ethics_score : ℤ)
    (critical_issues : String) : RunOutput :=
  let scores : Scores :=
    { privacy := privacy_score, bias := bias_score
    , transparency := transparency_score, ethics := ethics_score }
  if critical_issues ≠ "" ∧ 0 < (pyStrip critical_issues).length then
    { overall_score := 0, scores := scores, decision := "block"
    , reason := "Critical issue detected: " ++ critical_issues
    , conflicts := [] }
  else if critical_failures scores ≠ [] then
    { overall_score := min scores.privacy (min scores.bias (min scores.transparency scores.ethics))
    , scores := scores, decision := "block"
    , reason := "Critical failure in: " ++ String.intercalate ", " (critical_failures scores)
    , conflicts := [] }
  else
    let overall := rnearestEvenZ (weightedSum scores)
    { overall_score := overall
    , scores := scores
    , decision := if overall < 30 then "block" else if overall < 60 then "warn" else "proceed"
    , reason :=
        if overall < 30 then "Overall trust score too low"
        else if overall < 60 then "Trust score indicates caution needed"
        else "All checks passed"
    , conflicts := detect_conflicts scores }

/-- Modelled from the spec's words, for comparison with the code:
"rounding to nearest integer (ties round half up)". -/
def specRoundHalfUp (q : ℚ) : ℤ := ⌊q + 1/2⌋

/-! ## Audit logger (`src/project/audit_logger.py`)

The log directory is modelled as the ordered list of appended
`(session_id, event)` records: `_append_log` writes one JSON line to the
file `session_{session_id}.jsonl`, and the map from session id to file
name is injective, so a file's contents are exactly the records appended
under that id, in order.  JSON serialization of an event is modelled as
the identity round-trip.  `datetime.now()` timestamps are threaded in as
explicit arguments. -/

/-- The discriminated audit-event records written by the logger. -/
inductive AuditEvent where
  | session_start (timestamp : String) (session_id : String)
  | agent_report (timestamp : String) (session_id : String) (agent : String) (report : String)
  | trust_certificate (timestamp : String) (session_id : String) (certificate : String)
  | decision (timestamp : String) (session_id : String) (decision : String) (reason : String)
      (user_input : String) (final_response : String)
  | session_end (timestamp : String) (session_id : String) (processing_time_ms : ℤ)
deriving DecidableEq

/-- State of an `AuditLogger`: the append-only log records keyed by
session id, plus the `current_session` pointer. -/
structure AuditLogger where
  logs : List (String × AuditEvent)
  current_session : Option String
deriving DecidableEq

/-- Embeds `AuditLogger._append_log`: append one record to the session file. -/
def append_log (lg : AuditLogger) (session_id : String) (ev : AuditEvent) : AuditLogger :=
  { lg with logs := lg.logs ++ [(session_id, ev)] }

/-- Embeds `AuditLogger.start_session`: set `current_session` and append a
`session_start` record.  There is no duplicate-session check. -/
def start_session (lg : AuditLogger) (ts : String) (session_id : String) : AuditLogger :=
  append_log { lg with current_session := some session_id } session_id
    (AuditEvent.session_start ts session_id)

/-- Embeds `AuditLogger.get_session_history`: read back every line of
`session_{session_id}.jsonl` in order; a missing file gives `[]`. -/
def get_session_history (lg : AuditLogger) (session_id : String) : List AuditEvent :=
  (lg.logs.filter fun p => p.1 == session_id).map Prod.snd

/-- A sequence of events appended for one session, one `_append_log`
call per event (as the `log_agent_report`, `log_trust_certificate`,
`log_decision` and `end_session` methods do). -/
def append_events (lg : AuditLogger) (session_id : String) (evs : List AuditEvent) : AuditLogger :=
  evs.foldl (fun l ev => append_log l session_id ev) lg

/-- Python `str.replace(pat, rep)`: replace all occurrences, scanning
left to right, non-overlapping.  Implemented on character lists with a
fuel argument (the fuel `s.length` is always sufficient for a non-empty
pattern). -/
def pyReplaceGo (pat rep : List Char) : ℕ → List Char → List Char
  | _, [] => []
  | 0, rest => rest
  | fuel + 1, c :: rest =>
      if pat.isPrefixOf (c :: rest) then
        rep ++ pyReplaceGo pat rep fuel ((c :: rest).drop pat.length)
      else c :: pyReplaceGo pat rep fuel rest

/-- Python `s.replace(pat, rep)` on strings. -/
def pyReplace (s pat rep : String) : String :=
  ⟨pyReplaceGo pat.data rep.data s.data.length s.data⟩

/-- Embeds `AuditLogger.get_all_sessions`: glob `session_*.jsonl`, take each
file's stem (`"session_" ++ sid`), strip **every** occurrence of
`"session_"` from it (Python `str.replace` replaces all occurrences,
not just the prefix), and sort.  Python `sorted` on strings is
lexicographic. -/
def get_all_sessions (lg : AuditLogger) : List String :=
  List.insertionSort (fun a b => a ≤ b)
    ((lg.logs.map Prod.fst).dedup.map fun sid =>
      pyReplace ("session_" ++ sid) "session_" "")

/-- The decision kind of a `decision` event (`event["decision"]`). -/
def decisionOf : AuditEvent → Option String
  | .decision _ _ d _ _ _ => some d
  | _ => none

/-- The `processing_time_ms` of a `session_end` event, kept only when
strictly positive (the `if pt > 0` filter in `get_statistics`). -/
def endTimePos : AuditEvent → Option ℤ
  | .session_end _ _ pt => if 0 < pt then some pt else none
  | _ => none

/-- The `processing_time_ms` values collected by `get_statistics`: one
per `session_end` event, kept only when strictly positive. -/
def positive_times (h : List AuditEvent) : List ℤ :=
  h.filterMap endTimePos

/-- A small sample log used as a concrete statistics example: two
sessions, one "proceed" and one "block" decision, one positive and one
zero processing time. -/
def sampleLog : List (String × AuditEvent) :=
  [("s1", AuditEvent.session_start "t0" "s1"),
   ("s1", AuditEvent.decision "t1" "s1" "proceed" "r" "u" "f"),
   ("s1", AuditEvent.session_end "t2" "s1" 100),
   ("s2", AuditEvent.decision "t3" "s2" "block" "r" "u" "f"),
   ("s2", AuditEvent.session_end "t4" "s2" 0)]

/-- The aggregate built by `AuditLogger.get_statistics` (the
`common_issues` entry of the Python dict is initialised empty and never
updated, so it is omitted).  `avg_processing_time_ms` is Python float
division `sum/len`, modelled as the exact rational quotient. -/
structure Stats where
  total_sessions : ℕ
  decisions_proceed : ℕ
  decisions_warn : ℕ
  decisions_block : ℕ
  avg_processing_time_ms : ℚ
deriving DecidableEq

/-- Embeds `AuditLogger.get_statistics`: iterate over `get_all_sessions`,
replay each session's history, count decision events per kind (only the
three known kinds are keys of the `decisions` dict), collect positive
processing times, and average them (0 if none). -/
def get_statistics (lg : AuditLogger) : Stats :=
  let sessions := get_all_sessions lg
  let times := (sessions.map fun sid => positive_times (get_session_history lg sid)).flatten
  { total_sessions := sessions.length
  , decisions_proceed :=
      (sessions.map fun sid =>
        (get_session_history lg sid).countP fun ev => decisionOf ev == some "proceed").sum
  , decisions_warn :=
      (sessions.map fun sid =>
        (get_session_history lg sid).countP fun ev => decisionOf ev == some "warn").sum
  , decisions_block :=
      (sessions.map fun sid =>
        (get_session_history lg sid).countP fun ev => decisionOf ev == some "block").sum
  , avg_processing_time_ms :=
      if times = [] then 0 else (times.map fun (t : ℤ) => (t : ℚ)).sum / times.length }

/-! ## Pipeline entry point (`src/project/main.py`) -/

/-- Embeds `main.generate_base_response`. -/
def generate_base_response (user_input : String) : String :=
  "I understand you're asking about: " ++ user_input ++ ". Let me help you with that."

/-- The session id generated by `run_veritas_audit` when none is
supplied: `str(uuid.uuid4())[:8]`, the first 8 characters of a fresh
UUID4 string (UUID4 strings have 36 characters). -/
def generated_session_id (uuidStr : String) : String :=
  ⟨uuidStr.data.take 8⟩

/-- The dict returned by `run_veritas_audit`: either the success shape
`{success: True, session_id, user_input, proposed_response,
audit_result, processing_time_ms}` or the failure shape
`{success: False, session_id, error}`. -/
inductive AuditOutcome where
  | success (session_id user_input proposed_response audit_result : String)
      (processing_time_ms : ℤ)
  | failure (session_id : String) (error : String)
deriving DecidableEq

/-- Embeds `main.run_veritas_audit`.  The crewai `kickoff` call is an external
collaborator and is modelled as an input of type `Except String String`:
`.ok r` is a normal result, `.error e` is a raised exception with
message `e`.  The wall-clock processing time is threaded in as an
argument.  The `try/except` around `kickoff` catches every exception and
returns the failure dict — there is no per-detector recovery and no
synthetic substitute report anywhere in the pipeline. -/
def run_veritas_audit (user_input : String) (proposed_response : Option String)
    (session_id : Option String) (uuidStr : String)
    (crewResult : Except String String) (processing_time_ms : ℤ) : AuditOutcome :=
  let sid := session_id.getD (generated_session_id uuidStr)
  let resp := proposed_response.getD (generate_base_response user_input)
  match crewResult with
  | .ok r => .success sid user_input resp r processing_time_ms
  | .error e => .failure sid e

/-! ## Rounding-error analysis of the binary64 model -/

theorem rnearestEvenZ_close (q : ℚ) : |(rnearestEvenZ q : ℚ) - q| ≤ 1/2 := by
  have h0 : (⌊q⌋ : ℚ) ≤ q := Int.floor_le q
  have h1 : q < ⌊q⌋ + 1 := Int.lt_floor_add_one q
  unfold rnearestEvenZ
  split_ifs with hlt hgt hev
  · rw [abs_sub_comm, abs_of_nonneg (by linarith)]; linarith
  · rw [abs_of_nonneg (by push_cast; linarith)]; push_cast; linarith
  · rw [abs_sub_comm, abs_of_nonneg (by linarith)]; linarith
  · rw [abs_of_nonneg (by push_cast; linarith)]; push_cast; linarith

theorem rnearestEvenZ_eq_of_close (q : ℚ) (a : ℤ) (h1 : (a : ℚ) - 1/2 < q)
    (h2 : q < (a : ℚ) + 1/2) : rnearestEvenZ q = a := by
  rcases le_or_lt (a : ℚ) q with h | h
  · have hf : ⌊q⌋ = a := Int.floor_eq_iff.mpr ⟨h, by linarith⟩
    unfold rnearestEvenZ
    rw [if_pos]
    · exact hf
    · rw [hf]; linarith
  · have hf : ⌊q⌋ = a - 1 := by
      apply Int.floor_eq_iff.mpr
      constructor
      · push_cast; linarith
      · push_cast; linarith
    unfold rnearestEvenZ
    rw [if_neg, if_pos]
    · rw [hf]; ring
    · rw [hf]; push_cast; linarith
    · rw [hf]; push_cast; linarith

theorem ulpExpGo_spec (q : ℚ) : ∀ (fuel : ℕ) (n : ℤ),
    (2 : ℚ) ^ (n - 1) ≤ q → q < (2 : ℚ) ^ (n + fuel) →
    (2 : ℚ) ^ (ulpExpGo q fuel n - 1) ≤ q ∧ q < (2 : ℚ) ^ (ulpExpGo q fuel n)
  | 0, n, h1, h2 => by
    refine ⟨h1, ?_⟩
    simpa using h2
  | fuel + 1, n, h1, h2 => by
    rw [ulpExpGo]
    split_ifs with h
    · exact ⟨h1, h⟩
    · apply ulpExpGo_spec q fuel (n + 1)
      · simpa using not_lt.mp h
      · have : n + 1 + (fuel : ℤ) = n + ((fuel : ℕ) + 1 : ℕ) := by push_cast; ring
        rw [this]
        exact h2

theorem ulpExp_spec (q : ℚ) (h1 : (2 : ℚ) ^ (-9 : ℤ) ≤ q) (h2 : q < (2 : ℚ) ^ (17 : ℤ)) :
    (2 : ℚ) ^ (ulpExp q - 1) ≤ q ∧ q < (2 : ℚ) ^ (ulpExp q) := by
  apply ulpExpGo_spec q 25 (-8)
  · norm_num at h1 ⊢
    linarith
  · norm_num at h2 ⊢
    linarith

theorem roundDouble_err (q : ℚ) (h1 : (2 : ℚ) ^ (-9 : ℤ) ≤ q) (h2 : q < (2 : ℚ) ^ (17 : ℤ)) :
    |roundDouble q - q| ≤ q * (2 : ℚ) ^ (-53 : ℤ) := by
  have hq0 : 0 < q := lt_of_lt_of_le (by positivity) h1
  obtain ⟨hm1, hm2⟩ := ulpExp_spec q h1 h2
  rw [roundDouble, if_neg (not_le.mpr hq0)]
  set m := ulpExp q with hm
  have h2ne : (2 : ℚ) ≠ 0 := by norm_num
  have hcancel : (2 : ℚ) ^ (53 - m) * (2 : ℚ) ^ (m - 53) = 1 := by
    rw [← zpow_add₀ h2ne]; norm_num
  have key : ((rnearestEvenZ (q * (2 : ℚ) ^ (53 - m)) : ℤ) : ℚ) * (2 : ℚ) ^ (m - 53) - q
      = ((rnearestEvenZ (q * (2 : ℚ) ^ (53 - m)) : ℤ) - q * (2 : ℚ) ^ (53 - m)) * (2 : ℚ) ^ (m - 53) := by
    have : q = q * ((2 : ℚ) ^ (53 - m) * (2 : ℚ) ^ (m - 53)) := by rw [hcancel]; ring
    calc ((rnearestEvenZ (q * (2 : ℚ) ^ (53 - m)) : ℤ) : ℚ) * (2 : ℚ) ^ (m - 53) - q
        = ((rnearestEvenZ (q * (2 : ℚ) ^ (53 - m)) : ℤ) : ℚ) * (2 : ℚ) ^ (m - 53)
            - q * ((2 : ℚ) ^ (53 - m) * (2 : ℚ) ^ (m - 53)) := by rw [hcancel]; ring
      _ = ((rnearestEvenZ (q * (2 : ℚ) ^ (53 - m)) : ℤ) - q * (2 : ℚ) ^ (53 - m)) * (2 : ℚ) ^ (m - 53) := by
            ring
  rw [key, abs_mul, abs_of_pos (a := (2 : ℚ) ^ (m - 53)) (by positivity)]
  have hrne := rnearestEvenZ_close (q * (2 : ℚ) ^ (53 - m))
  calc |((rnearestEvenZ (q * (2 : ℚ) ^ (53 - m)) : ℤ) : ℚ) - q * (2 : ℚ) ^ (53 - m)| * (2 : ℚ) ^ (m - 53)
      ≤ (1/2) * (2 : ℚ) ^ (m - 53) := by
        apply mul_le_mul_of_nonneg_right hrne (by positivity)
    _ = (2 : ℚ) ^ (m - 1) * (2 : ℚ) ^ (-53 : ℤ) := by
        rw [← zpow_add₀ h2ne]
        have : (1 : ℚ) / 2 = (2 : ℚ) ^ (-1 : ℤ) := by norm_num
        rw [this, ← zpow_add₀ h2ne]
        congr 1
        ring
    _ ≤ q * (2 : ℚ) ^ (-53 : ℤ) := by
        apply mul_le_mul_of_nonneg_right hm1 (by positivity)

theorem two_zpow_neg53_le : (2 : ℚ) ^ (-53 : ℤ) ≤ 1/1000000000000000 := by
  rw [zpow_neg, show ((53 : ℤ)) = ((53 : ℕ) : ℤ) by norm_num, zpow_natCast]
  rw [inv_le_comm₀ (by positivity) (by norm_num)]
  norm_num

theorem two_zpow_neg53_nonneg : (0 : ℚ) ≤ (2 : ℚ) ^ (-53 : ℤ) := by positivity

/-- Error of a rounded value against an exact reference value, in the
range of the four weighted products and three partial sums. -/
theorem roundDouble_close (q : ℚ) (h1 : 3 ≤ q) (h2 : q ≤ 200) :
    |roundDouble q - q| ≤ 1/1000000000000 := by
  have hq1 : (2 : ℚ) ^ (-9 : ℤ) ≤ q := by
    norm_num
    linarith
  have hq2 : q < (2 : ℚ) ^ (17 : ℤ) := by
    norm_num
    linarith
  have herr := roundDouble_err q hq1 hq2
  have hD := two_zpow_neg53_le
  have hD0 := two_zpow_neg53_nonneg
  have hb : q * (2 : ℚ) ^ (-53 : ℤ) ≤ 200 * (1/1000000000000000) := by
    apply mul_le_mul h2 hD hD0 (by norm_num)
  exact le_trans herr (le_trans hb (by norm_num))

theorem w030_close : |w030 - 3/10| ≤ 1/1000000000000000 := by
  have h := roundDouble_err (3/10) (by norm_num) (by norm_num)
  have hD := two_zpow_neg53_le
  have hD0 := two_zpow_neg53_nonneg
  have : (3/10 : ℚ) * (2 : ℚ) ^ (-53 : ℤ) ≤ 1 * (1/1000000000000000) := by
    apply mul_le_mul (by norm_num) hD hD0 (by norm_num)
  rw [show w030 = roundDouble (3/10) from rfl]
  linarith

theorem w020_close : |w020 - 1/5| ≤ 1/1000000000000000 := by
  have h := roundDouble_err (1/5) (by norm_num) (by norm_num)
  have hD := two_zpow_neg53_le
  have hD0 := two_zpow_neg53_nonneg
  have : (1/5 : ℚ) * (2 : ℚ) ^ (-53 : ℤ) ≤ 1 * (1/1000000000000000) := by
    apply mul_le_mul (by norm_num) hD hD0 (by norm_num)
  rw [show w020 = roundDouble (1/5) from rfl]
  linarith

/-- One weighted product `score * weight` in binary64: error against the
exact real product, and range bounds for the following additions. -/
theorem mulD_close (x : ℤ) (c v : ℚ) (hx : 20 ≤ x) (hx' : x ≤ 100)
    (hc : |c - v| ≤ 1/1000000000000000) (hv : 1/5 ≤ v) (hv' : v ≤ 3/10) :
    |mulD (x : ℚ) c - (x : ℚ) * v| ≤ 1/100000000000 ∧
      3 ≤ mulD (x : ℚ) c ∧ mulD (x : ℚ) c ≤ 32 := by
  have hX : (20 : ℚ) ≤ (x : ℚ) := by exact_mod_cast hx
  have hX' : (x : ℚ) ≤ 100 := by exact_mod_cast hx'
  obtain ⟨hc1, hc2⟩ := abs_le.mp hc
  have hq1 : (20 : ℚ) * (1/5 - 1/1000000000000000) ≤ (x : ℚ) * c := by
    apply mul_le_mul hX (by linarith) (by norm_num) (by linarith)
  have hq2 : (x : ℚ) * c ≤ 100 * (3/10 + 1/1000000000000000) := by
    apply mul_le_mul hX' (by linarith) (by linarith) (by norm_num)
  have herr := roundDouble_close ((x : ℚ) * c) (by linarith) (by linarith)
  obtain ⟨he1, he2⟩ := abs_le.mp herr
  have hqv : |(x : ℚ) * c - (x : ℚ) * v| ≤ 100 * (1/1000000000000000) := by
    rw [show (x : ℚ) * c - (x : ℚ) * v = (x : ℚ) * (c - v) by ring, abs_mul,
      abs_of_nonneg (by linarith : (0 : ℚ) ≤ (x : ℚ))]
    apply mul_le_mul hX' hc (abs_nonneg _) (by norm_num)
  obtain ⟨hv1, hv2⟩ := abs_le.mp hqv
  refine ⟨abs_le.mpr ⟨by rw [mulD]; linarith, by rw [mulD]; linarith⟩, ?_, ?_⟩
  · rw [mulD]; linarith
  · rw [mulD]; linarith

/-- One partial sum in binary64: error against the exact sum of its two
operands. -/
theorem addD_close (a b : ℚ) (h1 : 6 ≤ a + b) (h2 : a + b ≤ 200) :
    |addD a b - (a + b)| ≤ 1/1000000000000 := by
  have := roundDouble_close (a + b) (by linarith) h2
  rw [addD]
  exact this

/-- The binary64 weighted sum is within `1/1000` of the exact rational
weighted sum `(3 p + 2 b + 2 t + 3 e) / 10`. -/
theorem weightedSum_close (p b t e : ℤ)
    (hp : 20 ≤ p) (hp' : p ≤ 100) (hb : 20 ≤ b) (hb' : b ≤ 100)
    (ht : 20 ≤ t) (ht' : t ≤ 100) (he : 20 ≤ e) (he' : e ≤ 100) :
    |weightedSum ⟨p, b, t, e⟩ - ((3*p + 2*b + 2*t + 3*e : ℤ) : ℚ)/10| ≤ 1/1000 := by
  obtain ⟨ht1e, ht1lo, ht1hi⟩ := mulD_close p w030 (3/10) hp hp' w030_close (by norm_num) le_rfl
  obtain ⟨ht2e, ht2lo, ht2hi⟩ := mulD_close b w020 (1/5) hb hb' w020_close le_rfl (by norm_num)
  obtain ⟨ht3e, ht3lo, ht3hi⟩ := mulD_close t w020 (1/5) ht ht' w020_close le_rfl (by norm_num)
  obtain ⟨ht4e, ht4lo, ht4hi⟩ := mulD_close e w030 (3/10) he he' w030_close (by norm_num) le_rfl
  set T1 := mulD (p : ℚ) w030 with hT1
  set T2 := mulD (b : ℚ) w020 with hT2
  set T3 := mulD (t : ℚ) w020 with hT3
  set T4 := mulD (e : ℚ) w030 with hT4
  have hs1e := addD_close T1 T2 (by linarith) (by linarith)
  set S1 := addD T1 T2 with hS1
  obtain ⟨hs1l, hs1r⟩ := abs_le.mp hs1e
  have hs2e := addD_close S1 T3 (by linarith) (by linarith)
  set S2 := addD S1 T3 with hS2
  obtain ⟨hs2l, hs2r⟩ := abs_le.mp hs2e
  have hs3e := addD_close S2 T4 (by linarith) (by linarith)
  set S3 := addD S2 T4 with hS3
  obtain ⟨hs3l, hs3r⟩ := abs_le.mp hs3e
  obtain ⟨h1l, h1r⟩ := abs_le.mp ht1e
  obtain ⟨h2l, h2r⟩ := abs_le.mp ht2e
  obtain ⟨h3l, h3r⟩ := abs_le.mp ht3e
  obtain ⟨h4l, h4r⟩ := abs_le.mp ht4e
  have hexact : ((3*p + 2*b + 2*t + 3*e : ℤ) : ℚ)/10
      = (p : ℚ) * (3/10) + (b : ℚ) * (1/5) + (t : ℚ) * (1/5) + (e : ℚ) * (3/10) := by
    push_cast
    ring
  have hws : weightedSum ⟨p, b, t, e⟩ = S3 := rfl
  rw [hws, hexact]
  apply abs_le.mpr
  constructor <;> linarith

/-- If an exact score sum `S` is not congruent to 5 mod 10, any rational
within `1/1000` of `S / 10` rounds (ties-to-even) to the unique nearest
integer, which is within `4/10` of `S / 10`. -/
theorem rne_int_near (S : ℤ) (hmod : S % 10 ≠ 5) (s : ℚ)
    (hclose : |s - (S : ℚ)/10| ≤ 1/1000) :
    |10 * rnearestEvenZ s - S| < 5 := by
  have hdiv : 10 * (S / 10) + S % 10 = S := Int.ediv_add_emod S 10
  set q := S / 10 with hq
  set r := S % 10 with hr
  have hr0 : 0 ≤ r := Int.emod_nonneg S (by norm_num)
  have hr9 : r < 10 := Int.emod_lt_of_pos S (by norm_num)
  obtain ⟨hc1, hc2⟩ := abs_le.mp hclose
  have hSq : (S : ℚ) = 10 * (q : ℚ) + (r : ℚ) := by exact_mod_cast hdiv.symm
  rcases lt_or_gt_of_ne hmod with hlt | hgt
  · have hrne : rnearestEvenZ s = q := by
      apply rnearestEvenZ_eq_of_close
      · have : (0 : ℚ) ≤ (r : ℚ) := by exact_mod_cast hr0
        rw [hSq] at hc1
        linarith
      · have hr4 : r ≤ 4 := by omega
        have : (r : ℚ) ≤ 4 := by exact_mod_cast hr4
        rw [hSq] at hc2
        linarith
    rw [hrne]
    apply abs_lt.mpr
    constructor <;> omega
  · have hrne : rnearestEvenZ s = q + 1 := by
      apply rnearestEvenZ_eq_of_close
      · have : (6 : ℚ) ≤ (r : ℚ) := by exact_mod_cast hgt
        rw [hSq] at hc1
        push_cast
        linarith
      · have hr9' : r ≤ 9 := by omega
        have : (r : ℚ) ≤ 9 := by exact_mod_cast hr9'
        rw [hSq] at hc2
        push_cast
        linarith
    rw [hrne]
    apply abs_lt.mpr
    constructor <;> omega

/-! ## Branch analysis of `TrustCalculator._run` -/

theorem length_pos_of_ne_empty {s : String} (h : s ≠ "") : 0 < s.length := by
  obtain ⟨data⟩ := s
  cases data with
  | nil => exact absurd rfl h
  | cons c cs => simp [String.length]

theorem branch1_false {ci : String} (hci : pyStrip ci = "") :
    ¬(ci ≠ "" ∧ 0 < (pyStrip ci).length) := by
  rintro ⟨-, h2⟩
  rw [hci] at h2
  exact absurd h2 (by decide)

theorem branch1_true {ci : String} (hci : pyStrip ci ≠ "") :
    ci ≠ "" ∧ 0 < (pyStrip ci).length := by
  constructor
  · intro h
    subst h
    exact hci rfl
  · exact length_pos_of_ne_empty hci

theorem critical_failures_eq_nil (s : Scores) (hp : 20 ≤ s.privacy) (hb : 20 ≤ s.bias)
    (ht : 20 ≤ s.transparency) (he : 20 ≤ s.ethics) : critical_failures s = [] := by
  have h1 : ¬(s.privacy < 20) := by omega
  have h2 : ¬(s.bias < 20) := by omega
  have h3 : ¬(s.transparency < 20) := by omega
  have h4 : ¬(s.ethics < 20) := by omega
  simp [critical_failures, score_list, h1, h2, h3, h4]

theorem critical_failures_ne_nil (s : Scores)
    (hlow : s.privacy < 20 ∨ s.bias < 20 ∨ s.transparency < 20 ∨ s.ethics < 20) :
    critical_failures s ≠ [] := by
  intro hnil
  rw [critical_failures, List.filterMap_eq_nil_iff] at hnil
  rcases hlow with h | h | h | h
  · have := hnil ("privacy", s.privacy) (by simp [score_list])
    rw [if_pos h] at this
    exact Option.noConfusion this
  · have := hnil ("bias", s.bias) (by simp [score_list])
    rw [if_pos h] at this
    exact Option.noConfusion this
  · have := hnil ("transparency", s.transparency) (by simp [score_list])
    rw [if_pos h] at this
    exact Option.noConfusion this
  · have := hnil ("ethics", s.ethics) (by simp [score_list])
    rw [if_pos h] at this
    exact Option.noConfusion this

/-- With a critical-issues string that is non-empty after stripping,
`_run` returns from its first branch. -/
theorem run_critical_eq (p b t e : ℤ) (ci : String) (hci : pyStrip ci ≠ "") :
    TrustCalculator_run p b t e ci =
      { overall_score := 0, scores := ⟨p, b, t, e⟩, decision := "block"
      , reason := "Critical issue detected: " ++ ci, conflicts := [] } := by
  simp only [TrustCalculator_run]
  rw [if_pos (branch1_true hci)]

/-- With no effective critical-issues override and some score below 20,
`_run` returns from its second branch. -/
theorem run_low_eq (p b t e : ℤ) (ci : String) (hci : pyStrip ci = "")
    (hlow : p < 20 ∨ b < 20 ∨ t < 20 ∨ e < 20) :
    TrustCalculator_run p b t e ci =
      { overall_score := min p (min b (min t e)), scores := ⟨p, b, t, e⟩
      , decision := "block"
      , reason := "Critical failure in: " ++
          String.intercalate ", " (critical_failures ⟨p, b, t, e⟩)
      , conflicts := [] } := by
  simp only [TrustCalculator_run]
  rw [if_neg (branch1_false hci), if_pos (critical_failures_ne_nil ⟨p, b, t, e⟩ hlow)]

/-- With no effective critical-issues override and all scores at least
20, `_run` reaches the weighted-aggregation branch. -/
theorem run_weighted_eq (p b t e : ℤ) (ci : String) (hci : pyStrip ci = "")
    (hp : 20 ≤ p) (hb : 20 ≤ b) (ht : 20 ≤ t) (he : 20 ≤ e) :
    TrustCalculator_run p b t e ci =
      { overall_score := rnearestEvenZ (weightedSum ⟨p, b, t, e⟩)
      , scores := ⟨p, b, t, e⟩
      , decision :=
          if rnearestEvenZ (weightedSum ⟨p, b, t, e⟩) < 30 then "block"
          else if rnearestEvenZ (weightedSum ⟨p, b, t, e⟩) < 60 then "warn" else "proceed"
      , reason :=
          if rnearestEvenZ (weightedSum ⟨p, b, t, e⟩) < 30 then "Overall trust score too low"
          else if rnearestEvenZ (weightedSum ⟨p, b, t, e⟩) < 60 then
            "Trust score indicates caution needed"
          else "All checks passed"
      , conflicts := detect_conflicts ⟨p, b, t, e⟩ } := by
  simp only [TrustCalculator_run]
  rw [if_neg (branch1_false hci),
    if_neg (not_not_intro (critical_failures_eq_nil ⟨p, b, t, e⟩ hp hb ht he))]

/-! ## Claim theorems: scoring engine -/

/-- C1 (amended): on the weighted-aggregation path (all scores in
[20,100], no critical-issue override) the overall score is the nearest
integer to `0.30·privacy + 0.20·bias + 0.20·transparency + 0.30·ethics`
whenever that weighted sum is not exactly halfway between two integers
(i.e. `3p+2b+2t+3e mod 10 ≠ 5`); the conclusion `|10·overall − (3p+2b+2t+3e)| < 5`
says exactly that `overall` is the unique nearest integer.  At exact
half-integer ties the result follows the binary64 evaluation and does
not round half up. -/
theorem c1_weighted_overall_nearest (p b t e : ℤ)
    (hp : 20 ≤ p) (hp' : p ≤ 100) (hb : 20 ≤ b) (hb' : b ≤ 100)
    (ht : 20 ≤ t) (ht' : t ≤ 100) (he : 20 ≤ e) (he' : e ≤ 100)
    (hmod : (3*p + 2*b + 2*t + 3*e) % 10 ≠ 5) :
    |10 * (TrustCalculator_run p b t e "").overall_score - (3*p + 2*b + 2*t + 3*e)| < 5 := by
  rw [run_weighted_eq p b t e "" rfl hp hb ht he]
  exact rne_int_near _ hmod _ (weightedSum_close p b t e hp hp' hb hb' ht ht' he he')

/-- Witness for C1: at scores (20,20,20,20) the weighted sum is exactly
20 and the overall score is within 1/2 of it. -/
theorem c1_weighted_overall_nearest_witness :
    |10 * (TrustCalculator_run 20 20 20 20 "").overall_score - (3*20 + 2*20 + 2*20 + 3*20)| < 5 :=
  c1_weighted_overall_nearest 20 20 20 20 (by decide) (by decide) (by decide) (by decide)
    (by decide) (by decide) (by decide) (by decide) (by decide)

set_option maxRecDepth 1000000 in
unseal Rat.mul Rat.inv Rat.add Rat.sub in
/-- Counterexample to C1 as stated: at scores (25,20,25,20) the exact
weighted sum is 22.5; "ties round half up" prescribes 23, but the code
(whose binary64 sum is exactly 22.5 here, rounded half-to-even by
Python's `round`) produces 22. -/
theorem c1_tie_not_half_up_counterexample :
    (TrustCalculator_run 25 20 25 20 "").overall_score = 22 ∧
    specRoundHalfUp ((3/10) * 25 + (1/5) * 20 + (1/5) * 25 + (3/10) * 20) = 23 ∧
    ((22 : ℤ) ≠ 23) :=
  ⟨by decide, by decide, by decide⟩

/-- C2: with an empty critical-issues string and at least one score
below 20 (all scores in [0,100]), the decision is "block" and the
overall score is the minimum of the four scores. -/
theorem c2_low_score_blocks (p b t e : ℤ)
    (_h0p : 0 ≤ p) (_h1p : p ≤ 100) (_h0b : 0 ≤ b) (_h1b : b ≤ 100)
    (_h0t : 0 ≤ t) (_h1t : t ≤ 100) (_h0e : 0 ≤ e) (_h1e : e ≤ 100)
    (hlow : p < 20 ∨ b < 20 ∨ t < 20 ∨ e < 20) :
    (TrustCalculator_run p b t e "").decision = "block" ∧
    (TrustCalculator_run p b t e "").overall_score = min p (min b (min t e)) := by
  rw [run_low_eq p b t e "" rfl hlow]
  exact ⟨rfl, rfl⟩

/-- Witness for C2 at scores (10,50,50,50). -/
theorem c2_low_score_blocks_witness :
    (TrustCalculator_run 10 50 50 50 "").decision = "block" ∧
    (TrustCalculator_run 10 50 50 50 "").overall_score = min 10 (min 50 (min 50 50)) :=
  c2_low_score_blocks 10 50 50 50 (by decide) (by decide) (by decide) (by decide)
    (by decide) (by decide) (by decide) (by decide) (Or.inl (by decide))

/-- C3: a critical-issues string that is non-empty after stripping
whitespace forces overall score 0 and decision "block", for every score
quadruple in [0,100] — the check precedes every other scoring rule. -/
theorem c3_critical_override_blocks (p b t e : ℤ)
    (_h0p : 0 ≤ p) (_h1p : p ≤ 100) (_h0b : 0 ≤ b) (_h1b : b ≤ 100)
    (_h0t : 0 ≤ t) (_h1t : t ≤ 100) (_h0e : 0 ≤ e) (_h1e : e ≤ 100)
    (ci : String) (hci : pyStrip ci ≠ "") :
    (TrustCalculator_run p b t e ci).overall_score = 0 ∧
    (TrustCalculator_run p b t e ci).decision = "block" := by
  rw [run_critical_eq p b t e ci hci]
  exact ⟨rfl, rfl⟩

/-- Witness for C3: even with all scores at 5 (low-score rule would give
overall 5) or at 90 (weighted rule would give proceed), the override
yields 0/"block"; shown here at (90,90,90,90). -/
theorem c3_critical_override_blocks_witness :
    (TrustCalculator_run 90 90 90 90 "unsafe content detected").overall_score = 0 ∧
    (TrustCalculator_run 90 90 90 90 "unsafe content detected").decision = "block" :=
  c3_critical_override_blocks 90 90 90 90 (by decide) (by decide) (by decide) (by decide)
    (by decide) (by decide) (by decide) (by decide) "unsafe content detected" (by decide)

/-- C4: on the weighted-aggregation path the decision is the
boundary-exact function of the overall score: block iff overall < 30,
warn iff 30 ≤ overall < 60, proceed iff 60 ≤ overall. -/
theorem c4_decision_thresholds (p b t e : ℤ) (ci : String) (hci : pyStrip ci = "")
    (hp : 20 ≤ p) (_hp' : p ≤ 100) (hb : 20 ≤ b) (_hb' : b ≤ 100)
    (ht : 20 ≤ t) (_ht' : t ≤ 100) (he : 20 ≤ e) (_he' : e ≤ 100) :
    ((TrustCalculator_run p b t e ci).decision = "block" ↔
      (TrustCalculator_run p b t e ci).overall_score < 30) ∧
    ((TrustCalculator_run p b t e ci).decision = "warn" ↔
      30 ≤ (TrustCalculator_run p b t e ci).overall_score ∧
        (TrustCalculator_run p b t e ci).overall_score < 60) ∧
    ((TrustCalculator_run p b t e ci).decision = "proceed" ↔
      60 ≤ (TrustCalculator_run p b t e ci).overall_score) := by
  rw [run_weighted_eq p b t e ci hci hp hb ht he]
  dsimp only
  set o := rnearestEvenZ (weightedSum ⟨p, b, t, e⟩) with ho
  rcases lt_or_le o 30 with h30 | h30
  · rw [if_pos h30]
    exact ⟨⟨fun _ => h30, fun _ => rfl⟩,
      ⟨fun h' => absurd h' (by decide), fun h' => absurd h'.1 (by omega)⟩,
      ⟨fun h' => absurd h' (by decide), fun h' => absurd h' (by omega)⟩⟩
  · rw [if_neg (not_lt.mpr h30)]
    rcases lt_or_le o 60 with h60 | h60
    · rw [if_pos h60]
      exact ⟨⟨fun h' => absurd h' (by decide), fun h' => absurd h' (by omega)⟩,
        ⟨fun _ => ⟨h30, h60⟩, fun _ => rfl⟩,
        ⟨fun h' => absurd h' (by decide), fun h' => absurd h' (by omega)⟩⟩
    · rw [if_neg (not_lt.mpr h60)]
      exact ⟨⟨fun h' => absurd h' (by decide), fun h' => absurd h' (by omega)⟩,
        ⟨fun h' => absurd h' (by decide), fun h' => absurd h'.2 (by omega)⟩,
        ⟨fun _ => h60, fun _ => rfl⟩⟩

/-- Witness for C4 at scores (90,90,90,90) with no override. -/
theorem c4_decision_thresholds_witness :
    ((TrustCalculator_run 90 90 90 90 "").decision = "block" ↔
      (TrustCalculator_run 90 90 90 90 "").overall_score < 30) ∧
    ((TrustCalculator_run 90 90 90 90 "").decision = "warn" ↔
      30 ≤ (TrustCalculator_run 90 90 90 90 "").overall_score ∧
        (TrustCalculator_run 90 90 90 90 "").overall_score < 60) ∧
    ((TrustCalculator_run 90 90 90 90 "").decision = "proceed" ↔
      60 ≤ (TrustCalculator_run 90 90 90 90 "").overall_score) :=
  c4_decision_thresholds 90 90 90 90 "" rfl (by decide) (by decide) (by decide) (by decide)
    (by decide) (by decide) (by decide) (by decide)

/-- C10: whenever the critical override fires (critical-issues string
non-empty after stripping, or some score below 20), the returned
conflict list is empty — conflict detection runs only on the
weighted-aggregation path. -/
theorem c10_override_empty_conflicts (p b t e : ℤ) (ci : String)
    (h : pyStrip ci ≠ "" ∨ p < 20 ∨ b < 20 ∨ t < 20 ∨ e < 20) :
    (TrustCalculator_run p b t e ci).conflicts = [] := by
  rcases h with hci | hlow
  · rw [run_critical_eq p b t e ci hci]
  · by_cases hci : pyStrip ci = ""
    · rw [run_low_eq p b t e ci hci hlow]
    · rw [run_critical_eq p b t e ci hci]

/-- Witness for C10 at scores (90,90,10,90): the pairs
(privacy,transparency), (bias,transparency) and (transparency,ethics)
differ by 80 > 40, yet no conflict is recorded because the low
transparency score takes the critical branch. -/
theorem c10_override_empty_conflicts_witness :
    (TrustCalculator_run 90 90 10 90 "").conflicts = [] :=
  c10_override_empty_conflicts 90 90 10 90 "" (Or.inr (Or.inr (Or.inr (Or.inl (by decide)))))

/-! ## Conflict detection (C5) -/

theorem detect_conflicts_explicit (s : Scores) :
    detect_conflicts s =
      (pairCheck s "privacy" s.privacy ("bias", s.bias)).toList ++
      (pairCheck s "privacy" s.privacy ("transparency", s.transparency)).toList ++
      (pairCheck s "privacy" s.privacy ("ethics", s.ethics)).toList ++
      (pairCheck s "bias" s.bias ("transparency", s.transparency)).toList ++
      (pairCheck s "bias" s.bias ("ethics", s.ethics)).toList ++
      (pairCheck s "transparency" s.transparency ("ethics", s.ethics)).toList := by
  have hfm : ∀ (f : String × ℤ → Option Conflict) (a : String × ℤ) (l : List (String × ℤ)),
      List.filterMap f (a :: l) = (f a).toList ++ List.filterMap f l := by
    intro f a l
    cases h : f a <;> simp [h]
  simp [detect_conflicts, detectPairs, score_list, hfm]

theorem scoreGet_privacy (s : Scores) : scoreGet s "privacy" = s.privacy := by
  rw [scoreGet, if_pos rfl]

theorem scoreGet_bias (s : Scores) : scoreGet s "bias" = s.bias := by
  rw [scoreGet, if_neg (by decide), if_pos rfl]

theorem scoreGet_transparency (s : Scores) : scoreGet s "transparency" = s.transparency := by
  rw [scoreGet, if_neg (by decide), if_neg (by decide), if_pos rfl]

theorem scoreGet_ethics (s : Scores) : scoreGet s "ethics" = s.ethics := by
  rw [scoreGet, if_neg (by decide), if_neg (by decide), if_neg (by decide), if_pos rfl]

theorem chunk_pb (s : Scores) :
    (pairCheck s "privacy" s.privacy ("bias", s.bias)).toList =
      if |s.privacy - s.bias| > 40 then
        [{ agents := ["PRIVACY", "BIAS"], scores := [s.privacy, s.bias]
         , resolution := "Deferring to stricter " ++
             (if s.privacy < s.bias then "privacy" else "bias") ++ " score for safety" }]
      else [] := by
  dsimp only [pairCheck]
  by_cases h : |s.privacy - s.bias| > 40
  · rw [if_pos h, if_pos h, if_pos (by decide :
      ("privacy" = "ethics" ∨ "bias" = "ethics" ∨ "privacy" = "privacy" ∨ "bias" = "privacy")),
      scoreGet_privacy, scoreGet_bias, (by decide : pyUpper "privacy" = "PRIVACY"),
      (by decide : pyUpper "bias" = "BIAS")]
    rfl
  · rw [if_neg h, if_neg h]
    rfl

theorem chunk_pt (s : Scores) :
    (pairCheck s "privacy" s.privacy ("transparency", s.transparency)).toList =
      if |s.privacy - s.transparency| > 40 then
        [{ agents := ["PRIVACY", "TRANSPARENCY"], scores := [s.privacy, s.transparency]
         , resolution := "Deferring to stricter " ++
             (if s.privacy < s.transparency then "privacy" else "transparency") ++ " score for safety" }]
      else [] := by
  dsimp only [pairCheck]
  by_cases h : |s.privacy - s.transparency| > 40
  · rw [if_pos h, if_pos h, if_pos (by decide :
      ("privacy" = "ethics" ∨ "transparency" = "ethics" ∨ "privacy" = "privacy" ∨ "transparency" = "privacy")),
      scoreGet_privacy, scoreGet_transparency, (by decide : pyUpper "privacy" = "PRIVACY"),
      (by decide : pyUpper "transparency" = "TRANSPARENCY")]
    rfl
  · rw [if_neg h, if_neg h]
    rfl

theorem chunk_pe (s : Scores) :
    (pairCheck s "privacy" s.privacy ("ethics", s.ethics)).toList =
      if |s.privacy - s.ethics| > 40 then
        [{ agents := ["PRIVACY", "ETHICS"], scores := [s.privacy, s.ethics]
         , resolution := "Deferring to stricter " ++
             (if s.privacy < s.ethics then "privacy" else "ethics") ++ " score for safety" }]
      else [] := by
  dsimp only [pairCheck]
  by_cases h : |s.privacy - s.ethics| > 40
  · rw [if_pos h, if_pos h, if_pos (by decide :
      ("privacy" = "ethics" ∨ "ethics" = "ethics" ∨ "privacy" = "privacy" ∨ "ethics" = "privacy")),
      scoreGet_privacy, scoreGet_ethics, (by decide : pyUpper "privacy" = "PRIVACY"),
      (by decide : pyUpper "ethics" = "ETHICS")]
    rfl
  · rw [if_neg h, if_neg h]
    rfl

theorem chunk_bt (s : Scores) :
    (pairCheck s "bias" s.bias ("transparency", s.transparency)).toList =
      if |s.bias - s.transparency| > 40 then
        [{ agents := ["BIAS", "TRANSPARENCY"], scores := [s.bias, s.transparency]
         , resolution := "Averaging scores with slight penalty for disagreement" }]
      else [] := by
  dsimp only [pairCheck]
  by_cases h : |s.bias - s.transparency| > 40
  · rw [if_pos h, if_pos h, if_neg (by decide :
      ¬("bias" = "ethics" ∨ "transparency" = "ethics" ∨ "bias" = "privacy" ∨ "transparency" = "privacy")),
      (by decide : pyUpper "bias" = "BIAS"), (by decide : pyUpper "transparency" = "TRANSPARENCY")]
    rfl
  · rw [if_neg h, if_neg h]
    rfl

theorem chunk_be (s : Scores) :
    (pairCheck s "bias" s.bias ("ethics", s.ethics)).toList =
      if |s.bias - s.ethics| > 40 then
        [{ agents := ["BIAS", "ETHICS"], scores := [s.bias, s.ethics]
         , resolution := "Deferring to stricter " ++
             (if s.bias < s.ethics then "bias" else "ethics") ++ " score for safety" }]
      else [] := by
  dsimp only [pairCheck]
  by_cases h : |s.bias - s.ethics| > 40
  · rw [if_pos h, if_pos h, if_pos (by decide :
      ("bias" = "ethics" ∨ "ethics" = "ethics" ∨ "bias" = "privacy" ∨ "ethics" = "privacy")),
      scoreGet_bias, scoreGet_ethics, (by decide : pyUpper "bias" = "BIAS"),
      (by decide : pyUpper "ethics" = "ETHICS")]
    rfl
  · rw [if_neg h, if_neg h]
    rfl

theorem chunk_te (s : Scores) :
    (pairCheck s "transparency" s.transparency ("ethics", s.ethics)).toList =
      if |s.transparency - s.ethics| > 40 then
        [{ agents := ["TRANSPARENCY", "ETHICS"], scores := [s.transparency, s.ethics]
         , resolution := "Deferring to stricter " ++
             (if s.transparency < s.ethics then "transparency" else "ethics") ++ " score for safety" }]
      else [] := by
  dsimp only [pairCheck]
  by_cases h : |s.transparency - s.ethics| > 40
  · rw [if_pos h, if_pos h, if_pos (by decide :
      ("transparency" = "ethics" ∨ "ethics" = "ethics" ∨ "transparency" = "privacy" ∨ "ethics" = "privacy")),
      scoreGet_transparency, scoreGet_ethics, (by decide : pyUpper "transparency" = "TRANSPARENCY"),
      (by decide : pyUpper "ethics" = "ETHICS")]
    rfl
  · rw [if_neg h, if_neg h]
    rfl

/-- Fully evaluated form of the conflict list: six guards in loop
order. -/
theorem detect_conflicts_closed (s : Scores) :
    detect_conflicts s =
      (if |s.privacy - s.bias| > 40 then
        [{ agents := ["PRIVACY", "BIAS"], scores := [s.privacy, s.bias]
         , resolution := "Deferring to stricter " ++
             (if s.privacy < s.bias then "privacy" else "bias") ++ " score for safety" }]
      else []) ++
      (if |s.privacy - s.transparency| > 40 then
        [{ agents := ["PRIVACY", "TRANSPARENCY"], scores := [s.privacy, s.transparency]
         , resolution := "Deferring to stricter " ++
             (if s.privacy < s.transparency then "privacy" else "transparency") ++ " score for safety" }]
      else []) ++
      (if |s.privacy - s.ethics| > 40 then
        [{ agents := ["PRIVACY", "ETHICS"], scores := [s.privacy, s.ethics]
         , resolution := "Deferring to stricter " ++
             (if s.privacy < s.ethics then "privacy" else "ethics") ++ " score for safety" }]
      else []) ++
      (if |s.bias - s.transparency| > 40 then
        [{ agents := ["BIAS", "TRANSPARENCY"], scores := [s.bias, s.transparency]
         , resolution := "Averaging scores with slight penalty for disagreement" }]
      else []) ++
      (if |s.bias - s.ethics| > 40 then
        [{ agents := ["BIAS", "ETHICS"], scores := [s.bias, s.ethics]
         , resolution := "Deferring to stricter " ++
             (if s.bias < s.ethics then "bias" else "ethics") ++ " score for safety" }]
      else []) ++
      (if |s.transparency - s.ethics| > 40 then
        [{ agents := ["TRANSPARENCY", "ETHICS"], scores := [s.transparency, s.ethics]
         , resolution := "Deferring to stricter " ++
             (if s.transparency < s.ethics then "transparency" else "ethics") ++ " score for safety" }]
      else []) := by
  rw [detect_conflicts_explicit, chunk_pb, chunk_pt, chunk_pe, chunk_bt, chunk_be, chunk_te]

theorem mem_guard {α : Type} {c x : α} {h : Prop} [Decidable h] :
    c ∈ (if h then [x] else []) ↔ h ∧ c = x := by
  split_ifs with hh <;> simp [hh]

theorem conflict_pb_iff (s : Scores) :
    conflictRecorded (detect_conflicts s) "PRIVACY" "BIAS" ↔ |s.privacy - s.bias| > 40 := by
  rw [conflictRecorded, detect_conflicts_closed]
  constructor
  · rintro ⟨c, hc, hag⟩
    simp only [List.mem_append, mem_guard, or_assoc] at hc
    rcases hc with ⟨hd, rfl⟩ | ⟨hd, rfl⟩ | ⟨hd, rfl⟩ | ⟨hd, rfl⟩ | ⟨hd, rfl⟩ | ⟨hd, rfl⟩ <;>
      first
        | exact hd
        | (rcases hag with h | h <;> simp at h)
  · intro hd
    exact ⟨⟨["PRIVACY", "BIAS"], [s.privacy, s.bias],
      "Deferring to stricter " ++ (if s.privacy < s.bias then "privacy" else "bias") ++ " score for safety"⟩,
      by
        simp only [List.mem_append, mem_guard, or_assoc]
        exact Or.inl (⟨hd, by trivial⟩), Or.inl rfl⟩

theorem conflict_pt_iff (s : Scores) :
    conflictRecorded (detect_conflicts s) "PRIVACY" "TRANSPARENCY" ↔ |s.privacy - s.transparency| > 40 := by
  rw [conflictRecorded, detect_conflicts_closed]
  constructor
  · rintro ⟨c, hc, hag⟩
    simp only [List.mem_append, mem_guard, or_assoc] at hc
    rcases hc with ⟨hd, rfl⟩ | ⟨hd, rfl⟩ | ⟨hd, rfl⟩ | ⟨hd, rfl⟩ | ⟨hd, rfl⟩ | ⟨hd, rfl⟩ <;>
      first
        | exact hd
        | (rcases hag with h | h <;> simp at h)
  · intro hd
    exact ⟨⟨["PRIVACY", "TRANSPARENCY"], [s.privacy, s.transparency],
      "Deferring to stricter " ++ (if s.privacy < s.transparency then "privacy" else "transparency") ++ " score for safety"⟩,
      by
        simp only [List.mem_append, mem_guard, or_assoc]
        exact Or.inr (Or.inl (⟨hd, by trivial⟩)), Or.inl rfl⟩

theorem conflict_pe_iff (s : Scores) :
    conflictRecorded (detect_conflicts s) "PRIVACY" "ETHICS" ↔ |s.privacy - s.ethics| > 40 := by
  rw [conflictRecorded, detect_conflicts_closed]
  constructor
  · rintro ⟨c, hc, hag⟩
    simp only [List.mem_append, mem_guard, or_assoc] at hc
    rcases hc with ⟨hd, rfl⟩ | ⟨hd, rfl⟩ | ⟨hd, rfl⟩ | ⟨hd, rfl⟩ | ⟨hd, rfl⟩ | ⟨hd, rfl⟩ <;>
      first
        | exact hd
        | (rcases hag with h | h <;> simp at h)
  · intro hd
    exact ⟨⟨["PRIVACY", "ETHICS"], [s.privacy, s.ethics],
      "Deferring to stricter " ++ (if s.privacy < s.ethics then "privacy" else "ethics") ++ " score for safety"⟩,
      by
        simp only [List.mem_append, mem_guard, or_assoc]
        exact Or.inr (Or.inr (Or.inl (⟨hd, by trivial⟩))), Or.inl rfl⟩

theorem conflict_bt_iff (s : Scores) :
    conflictRecorded (detect_conflicts s) "BIAS" "TRANSPARENCY" ↔ |s.bias - s.transparency| > 40 := by
  rw [conflictRecorded, detect_conflicts_closed]
  constructor
  · rintro ⟨c, hc, hag⟩
    simp only [List.mem_append, mem_guard, or_assoc] at hc
    rcases hc with ⟨hd, rfl⟩ | ⟨hd, rfl⟩ | ⟨hd, rfl⟩ | ⟨hd, rfl⟩ | ⟨hd, rfl⟩ | ⟨hd, rfl⟩ <;>
      first
        | exact hd
        | (rcases hag with h | h <;> simp at h)
  · intro hd
    exact ⟨⟨["BIAS", "TRANSPARENCY"], [s.bias, s.transparency],
      "Averaging scores with slight penalty for disagreement"⟩,
      by
        simp only [List.mem_append, mem_guard, or_assoc]
        exact Or.inr (Or.inr (Or.inr (Or.inl (⟨hd, by trivial⟩)))), Or.inl rfl⟩

theorem conflict_be_iff (s : Scores) :
    conflictRecorded (detect_conflicts s) "BIAS" "ETHICS" ↔ |s.bias - s.ethics| > 40 := by
  rw [conflictRecorded, detect_conflicts_closed]
  constructor
  · rintro ⟨c, hc, hag⟩
    simp only [List.mem_append, mem_guard, or_assoc] at hc
    rcases hc with ⟨hd, rfl⟩ | ⟨hd, rfl⟩ | ⟨hd, rfl⟩ | ⟨hd, rfl⟩ | ⟨hd, rfl⟩ | ⟨hd, rfl⟩ <;>
      first
        | exact hd
        | (rcases hag with h | h <;> simp at h)
  · intro hd
    exact ⟨⟨["BIAS", "ETHICS"], [s.bias, s.ethics],
      "Deferring to stricter " ++ (if s.bias < s.ethics then "bias" else "ethics") ++ " score for safety"⟩,
      by
        simp only [List.mem_append, mem_guard, or_assoc]
        exact Or.inr (Or.inr (Or.inr (Or.inr (Or.inl (⟨hd, by trivial⟩))))), Or.inl rfl⟩

theorem conflict_te_iff (s : Scores) :
    conflictRecorded (detect_conflicts s) "TRANSPARENCY" "ETHICS" ↔ |s.transparency - s.ethics| > 40 := by
  rw [conflictRecorded, detect_conflicts_closed]
  constructor
  · rintro ⟨c, hc, hag⟩
    simp only [List.mem_append, mem_guard, or_assoc] at hc
    rcases hc with ⟨hd, rfl⟩ | ⟨hd, rfl⟩ | ⟨hd, rfl⟩ | ⟨hd, rfl⟩ | ⟨hd, rfl⟩ | ⟨hd, rfl⟩ <;>
      first
        | exact hd
        | (rcases hag with h | h <;> simp at h)
  · intro hd
    exact ⟨⟨["TRANSPARENCY", "ETHICS"], [s.transparency, s.ethics],
      "Deferring to stricter " ++ (if s.transparency < s.ethics then "transparency" else "ethics") ++ " score for safety"⟩,
      by
        simp only [List.mem_append, mem_guard, or_assoc]
        exact Or.inr (Or.inr (Or.inr (Or.inr (Or.inr (⟨hd, by trivial⟩))))), Or.inl rfl⟩

theorem resolution_pb (s : Scores) : ∀ c ∈ detect_conflicts s,
    c.agents = ["PRIVACY", "BIAS"] ∨ c.agents = ["BIAS", "PRIVACY"] →
    c.resolution = "Deferring to stricter " ++
      (if s.privacy < s.bias then "privacy" else "bias") ++ " score for safety" := by
  rw [detect_conflicts_closed]
  intro c hc hag
  simp only [List.mem_append, mem_guard, or_assoc] at hc
  rcases hc with ⟨hd, rfl⟩ | ⟨hd, rfl⟩ | ⟨hd, rfl⟩ | ⟨hd, rfl⟩ | ⟨hd, rfl⟩ | ⟨hd, rfl⟩ <;>
    first
      | rfl
      | (rcases hag with h | h <;> simp at h)

theorem resolution_pt (s : Scores) : ∀ c ∈ detect_conflicts s,
    c.agents = ["PRIVACY", "TRANSPARENCY"] ∨ c.agents = ["TRANSPARENCY", "PRIVACY"] →
    c.resolution = "Deferring to stricter " ++
      (if s.privacy < s.transparency then "privacy" else "transparency") ++ " score for safety" := by
  rw [detect_conflicts_closed]
  intro c hc hag
  simp only [List.mem_append, mem_guard, or_assoc] at hc
  rcases hc with ⟨hd, rfl⟩ | ⟨hd, rfl⟩ | ⟨hd, rfl⟩ | ⟨hd, rfl⟩ | ⟨hd, rfl⟩ | ⟨hd, rfl⟩ <;>
    first
      | rfl
      | (rcases hag with h | h <;> simp at h)

theorem resolution_pe (s : Scores) : ∀ c ∈ detect_conflicts s,
    c.agents = ["PRIVACY", "ETHICS"] ∨ c.agents = ["ETHICS", "PRIVACY"] →
    c.resolution = "Deferring to stricter " ++
      (if s.privacy < s.ethics then "privacy" else "ethics") ++ " score for safety" := by
  rw [detect_conflicts_closed]
  intro c hc hag
  simp only [List.mem_append, mem_guard, or_assoc] at hc
  rcases hc with ⟨hd, rfl⟩ | ⟨hd, rfl⟩ | ⟨hd, rfl⟩ | ⟨hd, rfl⟩ | ⟨hd, rfl⟩ | ⟨hd, rfl⟩ <;>
    first
      | rfl
      | (rcases hag with h | h <;> simp at h)

theorem resolution_be (s : Scores) : ∀ c ∈ detect_conflicts s,
    c.agents = ["BIAS", "ETHICS"] ∨ c.agents = ["ETHICS", "BIAS"] →
    c.resolution = "Deferring to stricter " ++
      (if s.bias < s.ethics then "bias" else "ethics") ++ " score for safety" := by
  rw [detect_conflicts_closed]
  intro c hc hag
  simp only [List.mem_append, mem_guard, or_assoc] at hc
  rcases hc with ⟨hd, rfl⟩ | ⟨hd, rfl⟩ | ⟨hd, rfl⟩ | ⟨hd, rfl⟩ | ⟨hd, rfl⟩ | ⟨hd, rfl⟩ <;>
    first
      | rfl
      | (rcases hag with h | h <;> simp at h)

theorem resolution_te (s : Scores) : ∀ c ∈ detect_conflicts s,
    c.agents = ["TRANSPARENCY", "ETHICS"] ∨ c.agents = ["ETHICS", "TRANSPARENCY"] →
    c.resolution = "Deferring to stricter " ++
      (if s.transparency < s.ethics then "transparency" else "ethics") ++ " score for safety" := by
  rw [detect_conflicts_closed]
  intro c hc hag
  simp only [List.mem_append, mem_guard, or_assoc] at hc
  rcases hc with ⟨hd, rfl⟩ | ⟨hd, rfl⟩ | ⟨hd, rfl⟩ | ⟨hd, rfl⟩ | ⟨hd, rfl⟩ | ⟨hd, rfl⟩ <;>
    first
      | rfl
      | (rcases hag with h | h <;> simp at h)

/-- C5: on the weighted-aggregation path, a conflict between two
dimensions is recorded (in either order) exactly when their scores
differ by more than 40; all six unordered pairs are checked; and for a
recorded pair containing ethics or privacy, the resolution defers to the
dimension of the pair with the lower score. -/
theorem c5_conflict_detection (p b t e : ℤ) (ci : String) (hci : pyStrip ci = "")
    (hp : 20 ≤ p) (_hp' : p ≤ 100) (hb : 20 ≤ b) (_hb' : b ≤ 100)
    (ht : 20 ≤ t) (_ht' : t ≤ 100) (he : 20 ≤ e) (_he' : e ≤ 100) :
    (conflictRecorded (TrustCalculator_run p b t e ci).conflicts "PRIVACY" "BIAS" ↔ |p - b| > 40) ∧
    (conflictRecorded (TrustCalculator_run p b t e ci).conflicts "PRIVACY" "TRANSPARENCY" ↔ |p - t| > 40) ∧
    (conflictRecorded (TrustCalculator_run p b t e ci).conflicts "PRIVACY" "ETHICS" ↔ |p - e| > 40) ∧
    (conflictRecorded (TrustCalculator_run p b t e ci).conflicts "BIAS" "TRANSPARENCY" ↔ |b - t| > 40) ∧
    (conflictRecorded (TrustCalculator_run p b t e ci).conflicts "BIAS" "ETHICS" ↔ |b - e| > 40) ∧
    (conflictRecorded (TrustCalculator_run p b t e ci).conflicts "TRANSPARENCY" "ETHICS" ↔ |t - e| > 40) ∧
    (∀ c ∈ (TrustCalculator_run p b t e ci).conflicts,
      (c.agents = ["PRIVACY", "BIAS"] ∨ c.agents = ["BIAS", "PRIVACY"]) →
      c.resolution = "Deferring to stricter " ++
        (if p < b then "privacy" else "bias") ++ " score for safety") ∧
    (∀ c ∈ (TrustCalculator_run p b t e ci).conflicts,
      (c.agents = ["PRIVACY", "TRANSPARENCY"] ∨ c.agents = ["TRANSPARENCY", "PRIVACY"]) →
      c.resolution = "Deferring to stricter " ++
        (if p < t then "privacy" else "transparency") ++ " score for safety") ∧
    (∀ c ∈ (TrustCalculator_run p b t e ci).conflicts,
      (c.agents = ["PRIVACY", "ETHICS"] ∨ c.agents = ["ETHICS", "PRIVACY"]) →
      c.resolution = "Deferring to stricter " ++
        (if p < e then "privacy" else "ethics") ++ " score for safety") ∧
    (∀ c ∈ (TrustCalculator_run p b t e ci).conflicts,
      (c.agents = ["BIAS", "ETHICS"] ∨ c.agents = ["ETHICS", "BIAS"]) →
      c.resolution = "Deferring to stricter " ++
        (if b < e then "bias" else "ethics") ++ " score for safety") ∧
    (∀ c ∈ (TrustCalculator_run p b t e ci).conflicts,
      (c.agents = ["TRANSPARENCY", "ETHICS"] ∨ c.agents = ["ETHICS", "TRANSPARENCY"]) →
      c.resolution = "Deferring to stricter " ++
        (if t < e then "transparency" else "ethics") ++ " score for safety") := by
  rw [run_weighted_eq p b t e ci hci hp hb ht he]
  dsimp only
  exact ⟨conflict_pb_iff ⟨p, b, t, e⟩, conflict_pt_iff ⟨p, b, t, e⟩, conflict_pe_iff ⟨p, b, t, e⟩,
    conflict_bt_iff ⟨p, b, t, e⟩, conflict_be_iff ⟨p, b, t, e⟩, conflict_te_iff ⟨p, b, t, e⟩,
    resolution_pb ⟨p, b, t, e⟩, resolution_pt ⟨p, b, t, e⟩, resolution_pe ⟨p, b, t, e⟩,
    resolution_be ⟨p, b, t, e⟩, resolution_te ⟨p, b, t, e⟩⟩

/-- Witness for C5 at scores (30,85,80,90): the pairs
(privacy,bias), (privacy,transparency), (privacy,ethics) differ by
55, 50, 60 (all > 40) and resolutions defer to privacy (the lower
score); the remaining pairs differ by at most 10. -/
theorem c5_conflict_detection_witness :
    (conflictRecorded (TrustCalculator_run 30 85 80 90 "").conflicts "PRIVACY" "BIAS" ↔ |(30 : ℤ) - 85| > 40) ∧
    (conflictRecorded (TrustCalculator_run 30 85 80 90 "").conflicts "PRIVACY" "TRANSPARENCY" ↔ |(30 : ℤ) - 80| > 40) ∧
    (conflictRecorded (TrustCalculator_run 30 85 80 90 "").conflicts "PRIVACY" "ETHICS" ↔ |(30 : ℤ) - 90| > 40) ∧
    (conflictRecorded (TrustCalculator_run 30 85 80 90 "").conflicts "BIAS" "TRANSPARENCY" ↔ |(85 : ℤ) - 80| > 40) ∧
    (conflictRecorded (TrustCalculator_run 30 85 80 90 "").conflicts "BIAS" "ETHICS" ↔ |(85 : ℤ) - 90| > 40) ∧
    (conflictRecorded (TrustCalculator_run 30 85 80 90 "").conflicts "TRANSPARENCY" "ETHICS" ↔ |(80 : ℤ) - 90| > 40) ∧
    (∀ c ∈ (TrustCalculator_run 30 85 80 90 "").conflicts,
      (c.agents = ["PRIVACY", "BIAS"] ∨ c.agents = ["BIAS", "PRIVACY"]) →
      c.resolution = "Deferring to stricter " ++
        (if (30 : ℤ) < 85 then "privacy" else "bias") ++ " score for safety") ∧
    (∀ c ∈ (TrustCalculator_run 30 85 80 90 "").conflicts,
      (c.agents = ["PRIVACY", "TRANSPARENCY"] ∨ c.agents = ["TRANSPARENCY", "PRIVACY"]) →
      c.resolution = "Deferring to stricter " ++
        (if (30 : ℤ) < 80 then "privacy" else "transparency") ++ " score for safety") ∧
    (∀ c ∈ (TrustCalculator_run 30 85 80 90 "").conflicts,
      (c.agents = ["PRIVACY", "ETHICS"] ∨ c.agents = ["ETHICS", "PRIVACY"]) →
      c.resolution = "Deferring to stricter " ++
        (if (30 : ℤ) < 90 then "privacy" else "ethics") ++ " score for safety") ∧
    (∀ c ∈ (TrustCalculator_run 30 85 80 90 "").conflicts,
      (c.agents = ["BIAS", "ETHICS"] ∨ c.agents = ["ETHICS", "BIAS"]) →
      c.resolution = "Deferring to stricter " ++
        (if (85 : ℤ) < 90 then "bias" else "ethics") ++ " score for safety") ∧
    (∀ c ∈ (TrustCalculator_run 30 85 80 90 "").conflicts,
      (c.agents = ["TRANSPARENCY", "ETHICS"] ∨ c.agents = ["ETHICS", "TRANSPARENCY"]) →
      c.resolution = "Deferring to stricter " ++
        (if (80 : ℤ) < 90 then "transparency" else "ethics") ++ " score for safety") :=
  c5_conflict_detection 30 85 80 90 "" rfl (by decide) (by decide) (by decide) (by decide)
    (by decide) (by decide) (by decide) (by decide)

/-! ## Claim theorems: session manager and audit trail -/

/-- C7 (amended): `start_session` does not reject a second start while a
session is active — it overwrites `current_session` with the new id and
appends a `session_start` record; and the id generated by the pipeline
entry point when none is supplied is the first 8 characters of a fresh
UUID4 string (which has at least 8 characters). -/
theorem c7_start_session_replaces (lg : AuditLogger) (ts sid u : String)
    (hu : 8 ≤ u.data.length) :
    (start_session lg ts sid).current_session = some sid ∧
    (start_session lg ts sid).logs = lg.logs ++ [(sid, AuditEvent.session_start ts sid)] ∧
    (generated_session_id u).length = 8 := by
  refine ⟨rfl, rfl, ?_⟩
  have hlen : (generated_session_id u).length = (u.data.take 8).length := rfl
  rw [hlen, List.length_take]
  omega

/-- Witness for C7: starting with an active session "a", a second start
with id "b" succeeds and replaces it; an 8-character id is produced from
a 36-character UUID string. -/
theorem c7_start_session_replaces_witness :
    (start_session ⟨[], some "a"⟩ "t1" "b").current_session = some "b" ∧
    (start_session ⟨[], some "a"⟩ "t1" "b").logs =
      ([] : List (String × AuditEvent)) ++ [("b", AuditEvent.session_start "t1" "b")] ∧
    (generated_session_id "123e4567-e89b-42d3-a456-426614174000").length = 8 :=
  c7_start_session_replaces ⟨[], some "a"⟩ "t1" "b" "123e4567-e89b-42d3-a456-426614174000"
    (by decide)

/-- Counterexample to C7 as stated: with a session "a" already active,
`start_session` neither raises (it is a total function on the logger
state) nor leaves the active session unchanged — the active session
becomes "b". -/
theorem c7_duplicate_start_counterexample :
    (start_session ⟨[], some "a"⟩ "t1" "b").current_session = some "b" ∧
    (some "b" : Option String) ≠ some "a" :=
  ⟨rfl, by decide⟩

theorem history_append_log (lg : AuditLogger) (sid sid' : String) (ev : AuditEvent) :
    get_session_history (append_log lg sid' ev) sid =
      get_session_history lg sid ++ (if sid' == sid then [ev] else []) := by
  cases hb : (sid' == sid) <;>
    simp [get_session_history, append_log, List.filter_append, List.filter_cons, hb]

theorem history_append_events (lg : AuditLogger) (sid : String) (evs : List AuditEvent) :
    get_session_history (append_events lg sid evs) sid = get_session_history lg sid ++ evs := by
  induction evs generalizing lg with
  | nil => simp [append_events]
  | cons ev evs ih =>
      have hstep : append_events lg sid (ev :: evs) = append_events (append_log lg sid ev) sid evs := by
        rw [append_events, append_events, List.foldl_cons]
      rw [hstep, ih, history_append_log]
      simp

/-- C8: for a session id with no records, `get_session_history` returns
the empty sequence (not an error), and after appending any sequence of
events for that session, `get_session_history` returns exactly those
events in append order. -/
theorem c8_history_round_trip (lg : AuditLogger) (sid : String) (evs : List AuditEvent)
    (h : ∀ p ∈ lg.logs, p.1 ≠ sid) :
    get_session_history lg sid = [] ∧
    get_session_history (append_events lg sid evs) sid = evs := by
  have hnil : get_session_history lg sid = [] := by
    rw [get_session_history, List.filter_eq_nil_iff.mpr, List.map_nil]
    intro p hp
    simpa using h p hp
  refine ⟨hnil, ?_⟩
  rw [history_append_events, hnil, List.nil_append]

/-- Witness for C8: a logger holding records of another session; two
events appended for "s1" read back exactly, and "s1" starts empty. -/
theorem c8_history_round_trip_witness :
    get_session_history ⟨[("other", AuditEvent.session_start "t0" "other")], none⟩ "s1" = [] ∧
    get_session_history
      (append_events ⟨[("other", AuditEvent.session_start "t0" "other")], none⟩ "s1"
        [AuditEvent.session_start "t1" "s1", AuditEvent.session_end "t2" "s1" 12])
      "s1" =
      [AuditEvent.session_start "t1" "s1", AuditEvent.session_end "t2" "s1" 12] :=
  c8_history_round_trip ⟨[("other", AuditEvent.session_start "t0" "other")], none⟩ "s1"
    [AuditEvent.session_start "t1" "s1", AuditEvent.session_end "t2" "s1" 12] (by decide)

/-! ## Statistics aggregation (C9) -/

/-- A nodup list of keys covering every record partitions the log: the
concatenation of the per-key filters is a permutation of the log. -/
theorem key_partition_perm : ∀ (ks : List String) (L : List (String × AuditEvent)),
    ks.Nodup → (∀ p ∈ L, p.1 ∈ ks) →
    List.Perm (ks.map fun k => L.filter fun p => p.1 == k).flatten L
  | [], L, _, hcov => by
    have hL : L = [] := List.eq_nil_iff_forall_not_mem.mpr fun p hp => by simpa using hcov p hp
    rw [hL]
    exact List.Perm.refl _
  | k :: ks, L, hnd, hcov => by
    simp only [List.map_cons, List.flatten_cons]
    obtain ⟨hk, hnd'⟩ := List.nodup_cons.mp hnd
    have hsub : ∀ k' ∈ ks, (L.filter fun p => p.1 == k') =
        ((L.filter fun p => !(p.1 == k)).filter fun p => p.1 == k') := by
      intro k' hk'
      rw [List.filter_filter]
      apply List.filter_congr
      intro p _
      by_cases hpk : p.1 = k'
      · have hkk' : k' ≠ k := fun hh => hk (hh ▸ hk')
        have h1 : (p.1 == k') = true := by simp [hpk]
        have h2 : (p.1 == k) = false := by simp [hpk, hkk']
        rw [h1, h2]
        rfl
      · have h1 : (p.1 == k') = false := by simp [hpk]
        rw [h1]
        rfl
    rw [List.map_congr_left hsub]
    have hcov' : ∀ p ∈ (L.filter fun p => !(p.1 == k)), p.1 ∈ ks := by
      intro p hp
      rw [List.mem_filter] at hp
      rcases List.mem_cons.mp (hcov p hp.1) with h | h
      · exfalso
        have := hp.2
        rw [h] at this
        simp at this
      · exact h
    exact ((key_partition_perm ks _ hnd' hcov').append_left _).trans
      (List.filter_append_perm _ L)

/-- C9 (amended): provided no session id is changed by stripping the
substring "session_" (Python's `str.replace` strips every occurrence
from the file stem, not just the prefix), `get_statistics` reports the
number of distinct sessions, the per-kind count over all decision
events, and the mean of the positive processing times (0 when there are
none). -/
theorem c9_statistics_aggregate (lg : AuditLogger)
    (hfix : ∀ sid ∈ lg.logs.map Prod.fst, pyReplace ("session_" ++ sid) "session_" "" = sid) :
    (get_statistics lg).total_sessions = (lg.logs.map Prod.fst).dedup.length ∧
    (get_statistics lg).decisions_proceed =
      (lg.logs.map Prod.snd).countP (fun ev => decisionOf ev == some "proceed") ∧
    (get_statistics lg).decisions_warn =
      (lg.logs.map Prod.snd).countP (fun ev => decisionOf ev == some "warn") ∧
    (get_statistics lg).decisions_block =
      (lg.logs.map Prod.snd).countP (fun ev => decisionOf ev == some "block") ∧
    (get_statistics lg).avg_processing_time_ms =
      (if positive_times (lg.logs.map Prod.snd) = [] then 0
       else ((positive_times (lg.logs.map Prod.snd)).map fun (t : ℤ) => (t : ℚ)).sum /
         (positive_times (lg.logs.map Prod.snd)).length) := by
  have hperm : List.Perm (get_all_sessions lg) (lg.logs.map Prod.fst).dedup := by
    rw [get_all_sessions]
    have hext : ∀ k ∈ (lg.logs.map Prod.fst).dedup,
        pyReplace ("session_" ++ k) "session_" "" = id k :=
      fun k hk => hfix k (List.mem_dedup.mp hk)
    rw [List.map_congr_left hext, List.map_id]
    exact List.perm_insertionSort _ _
  have hcov : ∀ p ∈ lg.logs, p.1 ∈ (lg.logs.map Prod.fst).dedup := fun p hp =>
    List.mem_dedup.mpr (List.mem_map_of_mem Prod.fst hp)
  have hpart := key_partition_perm (lg.logs.map Prod.fst).dedup lg.logs
    (List.nodup_dedup _) hcov
  have htotal : (get_statistics lg).total_sessions = (lg.logs.map Prod.fst).dedup.length := by
    show (get_all_sessions lg).length = _
    exact hperm.length_eq
  have hcount : ∀ P : AuditEvent → Bool,
      ((get_all_sessions lg).map fun sid => (get_session_history lg sid).countP P).sum
        = (lg.logs.map Prod.snd).countP P := by
    intro P
    rw [(hperm.map fun sid => (get_session_history lg sid).countP P).sum_eq]
    have h2 : ((lg.logs.map Prod.fst).dedup.map fun sid => (get_session_history lg sid).countP P)
        = ((lg.logs.map Prod.fst).dedup.map fun k => lg.logs.filter fun p => p.1 == k).map
            (List.countP fun p => P p.2) := by
      rw [List.map_map]
      apply List.map_congr_left
      intro k _
      show (get_session_history lg k).countP P = _
      rw [get_session_history, List.countP_map]
      rfl
    rw [h2, ← List.countP_flatten, List.Perm.countP_eq _ hpart, List.countP_map]
    rfl
  have htimes : List.Perm ((get_all_sessions lg).map fun sid =>
      positive_times (get_session_history lg sid)).flatten
      (positive_times (lg.logs.map Prod.snd)) := by
    refine ((hperm.map fun sid => positive_times (get_session_history lg sid)).flatten).trans ?_
    have h3 : ((lg.logs.map Prod.fst).dedup.map fun sid =>
        positive_times (get_session_history lg sid))
        = ((lg.logs.map Prod.fst).dedup.map fun k => lg.logs.filter fun p => p.1 == k).map
            (List.filterMap fun p => endTimePos p.2) := by
      rw [List.map_map]
      apply List.map_congr_left
      intro k _
      show positive_times (get_session_history lg k) = _
      rw [positive_times, get_session_history, List.filterMap_map]
      rfl
    rw [h3, ← List.filterMap_flatten]
    refine (List.Perm.filterMap _ hpart).trans ?_
    rw [positive_times, List.filterMap_map]
    exact List.Perm.refl _
  have havg : (get_statistics lg).avg_processing_time_ms =
      (if positive_times (lg.logs.map Prod.snd) = [] then 0
       else ((positive_times (lg.logs.map Prod.snd)).map fun (t : ℤ) => (t : ℚ)).sum /
         (positive_times (lg.logs.map Prod.snd)).length) := by
    show (if ((get_all_sessions lg).map fun sid =>
        positive_times (get_session_history lg sid)).flatten = [] then (0 : ℚ)
      else ((((get_all_sessions lg).map fun sid =>
          positive_times (get_session_history lg sid)).flatten.map fun (t : ℤ) => (t : ℚ)).sum /
        ((get_all_sessions lg).map fun sid =>
          positive_times (get_session_history lg sid)).flatten.length)) = _
    by_cases h : positive_times (lg.logs.map Prod.snd) = []
    · have hT : ((get_all_sessions lg).map fun sid =>
          positive_times (get_session_history lg sid)).flatten = [] := (h ▸ htimes).eq_nil
      rw [hT, if_pos rfl, if_pos h]
    · have hT : ((get_all_sessions lg).map fun sid =>
          positive_times (get_session_history lg sid)).flatten ≠ [] := by
        intro hT
        exact h ((hT ▸ htimes).symm.eq_nil)
      rw [if_neg hT, if_neg h]
      congr 1
      · exact List.Perm.sum_eq (htimes.map _)
      · rw [htimes.length_eq]
  exact ⟨htotal, hcount _, hcount _, hcount _, havg⟩

/-- Witness for C9: on `sampleLog` (two sessions, one "proceed" and one
"block" decision, times 100 and 0) the statistics match the spec
aggregate: total 2, counts 1/0/1, mean 100. -/
theorem c9_statistics_aggregate_witness :
    (get_statistics ⟨sampleLog, none⟩).total_sessions = (sampleLog.map Prod.fst).dedup.length ∧
    (get_statistics ⟨sampleLog, none⟩).decisions_proceed =
      (sampleLog.map Prod.snd).countP (fun ev => decisionOf ev == some "proceed") ∧
    (get_statistics ⟨sampleLog, none⟩).decisions_warn =
      (sampleLog.map Prod.snd).countP (fun ev => decisionOf ev == some "warn") ∧
    (get_statistics ⟨sampleLog, none⟩).decisions_block =
      (sampleLog.map Prod.snd).countP (fun ev => decisionOf ev == some "block") ∧
    (get_statistics ⟨sampleLog, none⟩).avg_processing_time_ms =
      (if positive_times (sampleLog.map Prod.snd) = [] then 0
       else ((positive_times (sampleLog.map Prod.snd)).map fun (t : ℤ) => (t : ℚ)).sum /
         (positive_times (sampleLog.map Prod.snd)).length) :=
  c9_statistics_aggregate ⟨sampleLog, none⟩ (by decide)

/-- Counterexample to C9 as stated: a session whose id contains
"session_" is mangled by `get_all_sessions` (the stem
"session_session_x" becomes "x"), so its decision event is looked up
under the wrong id and never counted: the log holds one "proceed"
decision but the statistics report zero. -/
theorem c9_mangled_sid_counterexample :
    (get_statistics ⟨[("session_x",
        AuditEvent.decision "t" "session_x" "proceed" "r" "u" "f")], none⟩).decisions_proceed = 0 ∧
    (([("session_x", AuditEvent.decision "t" "session_x" "proceed" "r" "u" "f")].map
        Prod.snd).countP (fun ev => decisionOf ev == some "proceed")) = 1 ∧
    (0 : ℕ) ≠ 1 :=
  ⟨by decide, by decide, by decide⟩

/-! ## Pipeline error handling (C6) -/

/-- C6 (amended): when the crew run raises an exception (any detector
failure surfaces as an exception from `kickoff`), `run_veritas_audit`
catches it and returns the structured failure dict — success `False`,
the session id, and the error message.  No synthetic zero-score report
is substituted anywhere, and no final decision is produced on this
path. -/
theorem c6_crew_exception_failure (ui : String) (pr : Option String) (sid : Option String)
    (u : String) (t : ℤ) (e : String) :
    run_veritas_audit ui pr sid u (Except.error e) t =
      AuditOutcome.failure (sid.getD (generated_session_id u)) e := rfl

/-- Counterexample to C6 as stated: with the crew raising
"detector timeout", the pipeline does not substitute a synthetic report
and does not yield a decision — it returns the failure dict
`{success: False, session_id, error}`. -/
theorem c6_failure_counterexample :
    run_veritas_audit "hello" none none "123e4567-e89b-42d3-a456-426614174000"
      (Except.error "detector timeout") 5 =
      AuditOutcome.failure "123e4567" "detector timeout" := by
  decide

end Veritas
